import Mathlib

/-!
Shallow embedding of the order/inventory core of the business-management
application (src/models/order.py, src/models/product.py,
src/controllers/database_controller.py).

The SQLite database is modelled as explicit lists of rows; every statement
executed through DatabaseController.execute_query autocommits, so each SQL
statement is one pure state update.  Monetary amounts and quantities are
modelled as Int (the application stores integer rupiah amounts; SQLite REAL
rounding is out of scope of the claims).  Timestamp columns (created_at,
updated_at, date) carry no logic and are elided.
-/

namespace BizApp

/-- Row of the `products` table (columns relevant to the core:
id, name, price, stock; description/cost/unit/category and the timestamps
carry no logic and are elided). -/
structure ProductRow where
  id : Nat
  name : String
  price : Int
  stock : Int
  deriving Repr, DecidableEq

/-- Row of the `orders` table (timestamp columns elided). -/
structure OrderRow where
  id : Nat
  order_number : String
  customer_id : Option Nat
  status : String
  total_amount : Int
  paid_amount : Int
  deriving Repr, DecidableEq

/-- Row of the `order_items` table. -/
structure OrderItemRow where
  id : Nat
  order_id : Nat
  product_id : Nat
  quantity : Int
  price : Int
  total : Int
  deriving Repr, DecidableEq

/-- Row of the `financial_transactions` table (the `date` timestamp is
elided; `reference_id` is stored as text, `str(self.id)` in the source). -/
structure TransactionRow where
  type : String
  category : String
  amount : Int
  description : String
  reference_id : String
  reference_type : String
  payment_method : String
  deriving Repr, DecidableEq

/-- The SQLite database state.  `next_item_id` models the AUTOINCREMENT
counter of `order_items` (every stored item id was allocated below it). -/
structure DB where
  products : List ProductRow
  orders : List OrderRow
  order_items : List OrderItemRow
  financial_transactions : List TransactionRow
  next_item_id : Nat
  deriving Repr, DecidableEq

/-- In-memory `Order` model object (order.py).  `id` is `None` until the
order has been persisted.  Fields not touched by the claims' operations
(dates, notes, customer_id) are elided. -/
structure Order where
  id : Option Nat
  order_number : String
  status : String
  total_amount : Int
  paid_amount : Int
  deriving Repr, DecidableEq

/-- Product.get_by_id (product.py:82-108): `SELECT * FROM products WHERE
id = ?`, returning the first row if any. -/
def Product.get_by_id (db : DB) (product_id : Nat) : Option ProductRow :=
  db.products.find? (fun p => p.id == product_id)

/-- Product.update_stock (product.py:67-80) on a fetched row `p` (its `id`
is always set, so the `self.id is None` guard cannot fire): computes
`new_stock = self.stock + quantity` from the in-memory snapshot and runs
`UPDATE products SET stock = ? WHERE id = ?`.  Returns True. -/
def Product.update_stock (p : ProductRow) (quantity : Int) (db : DB) : Bool × DB :=
  let new_stock := p.stock + quantity
  let products := db.products.map
    (fun q => if q.id == p.id then { q with stock := new_stock } else q)
  (true, { db with products := products })

/-- Result of `SELECT COALESCE(SUM(total), 0) FROM order_items WHERE
order_id = ?`. -/
def orderLinesTotal (db : DB) (oid : Nat) : Int :=
  ((db.order_items.filter (fun it => it.order_id == oid)).map (fun it => it.total)).sum

/-- Order.update_total (order.py:142-163): `SELECT COALESCE(SUM(total),0)
FROM order_items WHERE order_id = ?` (an aggregate query always returns one
row, so the `if result:` branch is always taken), then
`UPDATE orders SET total_amount = ? WHERE id = ?` and
`self.total_amount = total`. -/
def Order.update_total (o : Order) (db : DB) : Bool × Order × DB :=
  match o.id with
  | none => (false, o, db)
  | some oid =>
    let total := orderLinesTotal db oid
    let orders := db.orders.map
      (fun r => if r.id == oid then { r with total_amount := total } else r)
    (true, { o with total_amount := total }, { db with orders := orders })

/-- Order.add_item (order.py:82-108): inserts the order_items row with
`total = quantity * price` (no validation of `quantity`), calls
`update_total`, then fetches the product and, only when it exists, calls
`update_stock(-quantity)`.  Returns the inserted row id (the AUTOINCREMENT
`lastrowid`), or `none` for the `self.id is None` early return (False). -/
def Order.add_item (o : Order) (db : DB) (product_id : Nat) (quantity price : Int) :
    Option Nat × Order × DB :=
  match o.id with
  | none => (none, o, db)
  | some oid =>
    let total := quantity * price
    let item_id := db.next_item_id
    let db1 : DB := { db with
      order_items := db.order_items ++
        [{ id := item_id, order_id := oid, product_id := product_id,
           quantity := quantity, price := price, total := total }],
      next_item_id := db.next_item_id + 1 }
    let ut := o.update_total db1
    match Product.get_by_id ut.2.2 product_id with
    | some product => (some item_id, ut.2.1, (Product.update_stock product (-quantity) ut.2.2).2)
    | none => (some item_id, ut.2.1, ut.2.2)

/-- Order.remove_item (order.py:110-140): `SELECT * FROM order_items WHERE
id = ?`; when a row is found (the lookup is global — there is no check that
the item belongs to this order), restores the product stock when the
product exists, deletes the item row, and calls `update_total`.  Returns
False when the item is missing or `self.id is None`. -/
def Order.remove_item (o : Order) (db : DB) (item_id : Nat) : Bool × Order × DB :=
  match o.id with
  | none => (false, o, db)
  | some _ =>
    match db.order_items.find? (fun it => it.id == item_id) with
    | none => (false, o, db)
    | some item =>
      let db1 :=
        match Product.get_by_id db item.product_id with
        | some product => (Product.update_stock product item.quantity db).2
        | none => db
      let db2 : DB := { db1 with
        order_items := db1.order_items.filter (fun it => !(it.id == item_id)) }
      let ut := o.update_total db2
      (true, ut.2.1, ut.2.2)

/-- Order.record_payment (order.py:191-205): inserts one
financial_transactions row (`type='income'`, `category='payment'`,
`reference_id=str(self.id)`, `reference_type='order'`).  Returns True. -/
def Order.record_payment (o : Order) (db : DB) (amount : Int) (payment_method : String) :
    Bool × DB :=
  (true,
   { db with financial_transactions := db.financial_transactions ++
      [{ type := "income", category := "payment", amount := amount,
         description := "Payment for order " ++ o.order_number,
         reference_id := match o.id with | some n => toString n | none => "None",
         reference_type := "order", payment_method := payment_method }] })

/-- Order.add_payment (order.py:165-189): no validation of `amount`; sets
`paid_amount := paid_amount + amount` in the row and in memory; when the
new in-memory `paid_amount >= self.total_amount` sets status to 'paid'
(both in memory and in the row); then records the financial transaction.
Returns False only when `self.id is None`. -/
def Order.add_payment (o : Order) (db : DB) (amount : Int) (payment_method : String) :
    Bool × Order × DB :=
  match o.id with
  | none => (false, o, db)
  | some oid =>
    let new_paid_amount := o.paid_amount + amount
    let orders1 := db.orders.map
      (fun r => if r.id == oid then { r with paid_amount := new_paid_amount } else r)
    let db1 : DB := { db with orders := orders1 }
    let o1 : Order := { o with paid_amount := new_paid_amount }
    let od2 : Order × DB :=
      if o1.paid_amount ≥ o1.total_amount then
        let orders2 := db1.orders.map
          (fun r => if r.id == oid then { r with status := "paid" } else r)
        ({ o1 with status := "paid" }, { db1 with orders := orders2 })
      else (o1, db1)
    (true, od2.1, (od2.1.record_payment od2.2 amount payment_method).2)

/-- Order.delete (order.py:64-80): `DELETE FROM order_items WHERE
order_id = ?` then `DELETE FROM orders WHERE id = ?`.  No product stock is
touched and no financial_transactions row is removed.  Returns False only
when `self.id is None`. -/
def Order.delete (o : Order) (db : DB) : Bool × Order × DB :=
  match o.id with
  | none => (false, o, db)
  | some oid =>
    (true, o,
     { db with
        order_items := db.order_items.filter (fun it => !(it.order_id == oid)),
        orders := db.orders.filter (fun r => !(r.id == oid)) })

namespace DatabaseController

/-- Python string slice `s[-4:]`: the last `min n s.length` characters. -/
def lastChars (s : String) (n : Nat) : String :=
  String.mk ((s.data.reverse.take n).reverse)

/-- Characters dropped from the front while whitespace. -/
def dropWS (l : List Char) : List Char := l.dropWhile (fun c => c.isWhitespace)

/-- Decimal value of a nonempty all-digit character list, read left to
right. -/
def digitsVal? (l : List Char) : Option Nat :=
  if l ≠ [] ∧ l.all Char.isDigit then
    some (l.foldl (fun a c => a * 10 + (c.toNat - 48)) 0)
  else none

/-- Model of Python `int(s)`: strips surrounding whitespace, accepts an
optional sign followed by one or more ASCII digits, otherwise raises
(`none`).  Underscore separators and non-ASCII digits, which never occur in
generated numbers, are not modelled. -/
def pyInt? (s : String) : Option Int :=
  let t := (dropWS (dropWS s.data).reverse).reverse
  match t with
  | [] => none
  | c :: rest =>
    if c == '-' then (digitsVal? rest).map (fun v => -(v : Int))
    else if c == '+' then (digitsVal? rest).map (fun v => (v : Int))
    else (digitsVal? t).map (fun v => (v : Int))

/-- The four decimal digit characters of `k ≤ 9999`, most significant
first. -/
def fourDigits (k : Nat) : List Char :=
  [Nat.digitChar (k / 1000), Nat.digitChar (k / 100 % 10),
   Nat.digitChar (k / 10 % 10), Nat.digitChar (k % 10)]

/-- The three decimal digit characters of `k ≤ 999`, most significant
first. -/
def threeDigits (k : Nat) : List Char :=
  [Nat.digitChar (k / 100), Nat.digitChar (k / 10 % 10), Nat.digitChar (k % 10)]

/-- Model of the Python format `f"{n:04d}"`: the decimal representation of
`n`, zero-padded on the left to a total width of four (the sign, when
present, counts toward the width). -/
def fmt04 (n : Int) : String :=
  if n < 0 then
    if n.natAbs ≤ 999 then "-" ++ String.mk (threeDigits n.natAbs)
    else "-" ++ toString n.natAbs
  else
    if n.toNat ≤ 9999 then String.mk (fourDigits n.toNat)
    else toString n.toNat

/-- Byte order of SQLite's BINARY collation on decoded strings:
lexicographic order on the character lists (UTF-8 byte order coincides
with code-point order). -/
def listCharLt : List Char → List Char → Bool
  | [], [] => false
  | [], _ :: _ => true
  | _ :: _, [] => false
  | a :: as, b :: bs => if a < b then true else if b < a then false else listCharLt as bs

/-- SQL `field LIKE 'pat%'` as a prefix test on the character lists (the
generated numbers are upper case, so SQLite's ASCII case folding never
distinguishes rows here). -/
def startsWithChars (pat s : String) : Bool :=
  go pat.data s.data
where
  go : List Char → List Char → Bool
    | [], _ => true
    | _ :: _, [] => false
    | a :: as, b :: bs => a == b && go as bs

/-- Result of `ORDER BY field DESC LIMIT 1`: the greatest string of the
list under SQLite's BINARY collation. -/
def maxString? (l : List String) : Option String :=
  l.foldl (fun acc s =>
    match acc with
    | none => some s
    | some m => if listCharLt m.data s.data then some s else some m) none

/-- DatabaseController.generate_number (database_controller.py:293-323).
`table` is the list of values stored in the queried column; `date_str`
stands for `datetime.now().strftime("%Y%m%d")`.  The `LIKE '{prefix}{date}%'`
filter is modelled as a prefix match (order numbers are generated in upper
case, so SQLite's ASCII case folding never fires), the `ORDER BY ... DESC
LIMIT 1` as `maxString?`, and `int(last_number[-4:]) + 1` with the
fall-back `sequence = 1` on a parse failure as written. -/
def generate_number (table : List String) (pfx date_str : String) : String :=
  let pat := pfx ++ date_str
  let matching := table.filter (fun s => startsWithChars pat s)
  match maxString? matching with
  | some last_number =>
    let sequence : Int :=
      match pyInt? (lastChars last_number 4) with
      | some n => n + 1
      | none => 1
    pat ++ fmt04 sequence
  | none => pat ++ fmt04 1

/-- The sequence number carried by a stored number: the decimal value of
its last four characters (0 when they do not parse). -/
def seqOf (s : String) : Nat := ((pyInt? (lastChars s 4)).getD 0).toNat

/-- The highest sequence already issued among the stored numbers matching
the `(prefix, date)` pattern `pat` (0 when none exists). -/
def issuedMax (table : List String) (pat : String) : Nat :=
  ((table.filter (fun s => startsWithChars pat s)).map seqOf).foldl max 0

end DatabaseController

/-- One committed operation of the order lifecycle, as invoked on a given
in-memory order object. -/
inductive Op where
  | add_item (product_id : Nat) (quantity price : Int)
  | remove_item (item_id : Nat)
  | add_payment (amount : Int) (payment_method : String)
  | delete
  deriving Repr, DecidableEq

/-- Apply one operation to the (order object, database) pair, discarding
the returned status/rowid. -/
def applyOp (s : Order × DB) (op : Op) : Order × DB :=
  match op with
  | .add_item pid q pr => (s.1.add_item s.2 pid q pr).2
  | .remove_item iid => (s.1.remove_item s.2 iid).2
  | .add_payment amt m => (s.1.add_payment s.2 amt m).2
  | .delete => (s.1.delete s.2).2

/-- Apply a committed sequence of operations left to right. -/
def runOps (s : Order × DB) (ops : List Op) : Order × DB := ops.foldl applyOp s

/-- Stored-total invariant for the order with row id `oid`: every orders
row with that id carries exactly the sum of its order_items totals. -/
def totalInv (db : DB) (oid : Nat) : Prop :=
  ∀ r ∈ db.orders, r.id = oid → r.total_amount = orderLinesTotal db oid

instance (db : DB) (oid : Nat) : Decidable (totalInv db oid) := by
  unfold totalInv
  infer_instance

/-- Concrete catalog product used by the scenarios (unit price 15000000,
ten units in stock). -/
def sampleProduct : ProductRow :=
  { id := 1, name := "Laptop", price := 15000000, stock := 10 }

/-- Concrete database holding one customer order row (freshly created:
status 'pending', zero totals) and `sampleProduct`. -/
def sampleDB : DB :=
  { products := [sampleProduct],
    orders := [{ id := 1, order_number := "ORD202401010001", customer_id := some 1,
                 status := "pending", total_amount := 0, paid_amount := 0 }],
    order_items := [], financial_transactions := [], next_item_id := 1 }

/-- In-memory object for the order persisted in `sampleDB`. -/
def sampleOrder : Order :=
  { id := some 1, order_number := "ORD202401010001", status := "pending",
    total_amount := 0, paid_amount := 0 }

/-- An `Order()` object that was never saved: its `id` is `None`. -/
def unsavedOrder : Order :=
  { id := none, order_number := "", status := "pending",
    total_amount := 0, paid_amount := 0 }

/-- Database state of `sampleDB` after Scenario A (one line of two units
at 15000000 added to order 1): stock 8, line total 30000000. -/
def scenarioADB : DB := (sampleOrder.add_item sampleDB 1 2 15000000).2.2

/-- In-memory order object after Scenario A. -/
def scenarioAOrder : Order := (sampleOrder.add_item sampleDB 1 2 15000000).2.1

/-! Helper lemmas about the operations. -/

/-- update_total never touches the products table. -/
theorem update_total_products (o : Order) (db : DB) :
    (o.update_total db).2.2.products = db.products := by
  unfold Order.update_total
  cases o.id <;> rfl

/-- update_total never touches the order_items table. -/
theorem update_total_order_items (o : Order) (db : DB) :
    (o.update_total db).2.2.order_items = db.order_items := by
  unfold Order.update_total
  cases o.id <;> rfl

/-- update_total never touches the financial_transactions table. -/
theorem update_total_financial (o : Order) (db : DB) :
    (o.update_total db).2.2.financial_transactions = db.financial_transactions := by
  unfold Order.update_total
  cases o.id <;> rfl

/-- update_total does not allocate item ids. -/
theorem update_total_next_item_id (o : Order) (db : DB) :
    (o.update_total db).2.2.next_item_id = db.next_item_id := by
  unfold Order.update_total
  cases o.id <;> rfl

/-- update_total leaves every object field except total_amount unchanged. -/
theorem update_total_object (o : Order) (db : DB) (oid : Nat) (h : o.id = some oid) :
    (o.update_total db).2.1 = { o with total_amount := orderLinesTotal db oid } := by
  unfold Order.update_total
  rw [h]

/-- update_total on a persisted order re-establishes the stored-total
invariant for that order unconditionally. -/
theorem update_total_establishes_inv (o : Order) (db : DB) (oid : Nat)
    (h : o.id = some oid) : totalInv (o.update_total db).2.2 oid := by
  unfold Order.update_total
  rw [h]
  intro r hr hid
  simp only [List.mem_map] at hr
  obtain ⟨a, _, rfl⟩ := hr
  by_cases hc : a.id == oid
  · simp only [hc, if_pos rfl]
    rfl
  · rw [if_neg (by simpa using hc)] at hid ⊢
    exact absurd hid (by simpa using hc)

/-- update_stock never touches orders or order_items, so it preserves the
stored-total invariant. -/
theorem update_stock_preserves_inv (p : ProductRow) (q : Int) (db : DB) (oid : Nat)
    (h : totalInv db oid) : totalInv (Product.update_stock p q db).2 oid := by
  unfold Product.update_stock
  intro r hr hid
  exact h r hr hid

/-- update_stock writes only the products table. -/
theorem update_stock_products (p : ProductRow) (q : Int) (db : DB) :
    (Product.update_stock p q db).2.products =
      db.products.map (fun r => if r.id == p.id then { r with stock := p.stock + q } else r) :=
  rfl

/-- update_stock leaves the order_items table unchanged. -/
theorem update_stock_order_items (p : ProductRow) (q : Int) (db : DB) :
    (Product.update_stock p q db).2.order_items = db.order_items := rfl

/-- update_stock leaves the orders table unchanged. -/
theorem update_stock_orders (p : ProductRow) (q : Int) (db : DB) :
    (Product.update_stock p q db).2.orders = db.orders := rfl

/-- update_stock leaves the financial_transactions table unchanged. -/
theorem update_stock_financial (p : ProductRow) (q : Int) (db : DB) :
    (Product.update_stock p q db).2.financial_transactions = db.financial_transactions := rfl

/-- update_stock does not allocate item ids. -/
theorem update_stock_next_item_id (p : ProductRow) (q : Int) (db : DB) :
    (Product.update_stock p q db).2.next_item_id = db.next_item_id := rfl

/-- The stored-total invariant only reads the orders and order_items
tables. -/
theorem totalInv_ext (db db' : DB) (oid : Nat)
    (ho : db'.orders = db.orders) (hi : db'.order_items = db.order_items)
    (h : totalInv db oid) : totalInv db' oid := by
  intro r hr hid
  rw [ho] at hr
  have hbase := h r hr hid
  unfold orderLinesTotal at hbase ⊢
  rw [hi]
  exact hbase

/-- The stored-total invariant survives any rewrite of the orders rows
that preserves ids and total_amounts, as long as order_items are kept. -/
theorem totalInv_map_orders (db db' : DB) (oid : Nat) (f : OrderRow → OrderRow)
    (hf : ∀ r, (f r).id = r.id ∧ (f r).total_amount = r.total_amount)
    (ho : db'.orders = db.orders.map f) (hi : db'.order_items = db.order_items)
    (h : totalInv db oid) : totalInv db' oid := by
  intro r hr hid
  rw [ho] at hr
  simp only [List.mem_map] at hr
  obtain ⟨a, ha, rfl⟩ := hr
  have hid' : a.id = oid := (hf a).1 ▸ hid
  have hbase := h a ha hid'
  unfold orderLinesTotal at hbase ⊢
  rw [hi, (hf a).2]
  exact hbase

/-- Every operation leaves the in-memory object's id unchanged. -/
theorem applyOp_fst_id (s : Order × DB) (op : Op) : (applyOp s op).1.id = s.1.id := by
  obtain ⟨o, db⟩ := s
  cases op with
  | add_item pid q pr =>
    cases h : o.id with
    | none => simp [applyOp, Order.add_item, h]
    | some oid =>
      simp only [applyOp, Order.add_item, h]
      split <;> simp [Order.update_total, h]
  | remove_item iid =>
    cases h : o.id with
    | none => simp [applyOp, Order.remove_item, h]
    | some oid =>
      simp only [applyOp, Order.remove_item, h]
      cases hf : db.order_items.find? (fun it => it.id == iid) <;>
        simp [hf, Order.update_total, h]
  | add_payment amt m =>
    cases h : o.id with
    | none => simp [applyOp, Order.add_payment, h]
    | some oid =>
      simp only [applyOp, Order.add_payment, h]
      by_cases hp : o.paid_amount + amt ≥ o.total_amount <;> simp [hp, h]
  | delete =>
    cases h : o.id <;> simp [applyOp, Order.delete, h]

/-- One committed operation preserves the stored-total invariant of the
operated order. -/
theorem applyOp_preserves_inv (s : Order × DB) (op : Op) (oid : Nat)
    (h : s.1.id = some oid) (hinv : totalInv s.2 oid) : totalInv (applyOp s op).2 oid := by
  obtain ⟨o, db⟩ := s
  simp only at h
  cases op with
  | add_item pid q pr =>
    simp only [applyOp, Order.add_item, h]
    split
    · exact update_stock_preserves_inv _ _ _ _ (update_total_establishes_inv o _ oid h)
    · exact update_total_establishes_inv o _ oid h
  | remove_item iid =>
    simp only [applyOp, Order.remove_item, h]
    cases hf : db.order_items.find? (fun it => it.id == iid) with
    | none => exact hinv
    | some item => exact update_total_establishes_inv o _ oid h
  | add_payment amt m =>
    simp only [applyOp, Order.add_payment, h]
    by_cases hp : o.paid_amount + amt ≥ o.total_amount
    · simp only [hp, if_true, ite_true, Order.record_payment]
      have h1 : totalInv { db with orders := db.orders.map (fun r => if r.id == oid then { r with paid_amount := o.paid_amount + amt } else r) } oid := by
        refine totalInv_map_orders db _ oid _ ?_ rfl rfl hinv
        intro r
        by_cases hr : r.id == oid <;> simp [hr]
      refine totalInv_map_orders { db with orders := db.orders.map (fun r => if r.id == oid then { r with paid_amount := o.paid_amount + amt } else r) } _ oid _ ?_ rfl rfl h1
      intro r
      by_cases hr : r.id == oid <;> simp [hr]
    · simp only [hp, if_false, ite_false, Order.record_payment]
      refine totalInv_map_orders db _ oid _ ?_ rfl rfl hinv
      intro r
      by_cases hr : r.id == oid <;> simp [hr]
  | delete =>
    simp only [applyOp, Order.delete, h]
    intro r hr hid
    rw [List.mem_filter] at hr
    exact absurd hid (by simpa using hr.2)

/-- Extensionality for database states. -/
theorem DB.ext (a b : DB) (h1 : a.products = b.products) (h2 : a.orders = b.orders)
    (h3 : a.order_items = b.order_items)
    (h4 : a.financial_transactions = b.financial_transactions)
    (h5 : a.next_item_id = b.next_item_id) : a = b := by
  cases a
  cases b
  simp_all

/-- orderLinesTotal reads only the order_items table. -/
theorem orderLinesTotal_congr (db db' : DB) (oid : Nat)
    (h : db.order_items = db'.order_items) :
    orderLinesTotal db oid = orderLinesTotal db' oid := by
  unfold orderLinesTotal
  rw [h]

/-- Appending one line for the order adds its total to the stored sum. -/
theorem orderLinesTotal_append (db db' : DB) (oid : Nat) (row : OrderItemRow)
    (hi : db'.order_items = db.order_items ++ [row]) (h : (row.order_id == oid) = true) :
    orderLinesTotal db' oid = orderLinesTotal db oid + row.total := by
  unfold orderLinesTotal
  rw [hi, List.filter_append]
  simp [h]

/-- The stock-update map leaves every product id unchanged. -/
theorem stockMap_id (pid : Nat) (v : Int) (r : ProductRow) :
    ((fun q => if q.id == pid then { q with stock := v } else q) r).id = r.id := by
  by_cases h : r.id == pid <;> simp [h]

/-- find? for an id predicate commutes with an id-preserving map of the
products table. -/
theorem find?_map_of_id (l : List ProductRow) (f : ProductRow → ProductRow)
    (hf : ∀ q, (f q).id = q.id) (pid : Nat) :
    (l.map f).find? (fun q => q.id == pid) = (l.find? (fun q => q.id == pid)).map f := by
  induction l with
  | nil => rfl
  | cons a l ih =>
    rw [List.map_cons, List.find?_cons, List.find?_cons]
    rw [show ((f a).id == pid) = (a.id == pid) by rw [hf a]]
    cases h : (a.id == pid) with
    | true => simp
    | false => simpa using ih

/-- With duplicate-free product ids, the row found by get_by_id is the
only row bearing its id. -/
theorem product_unique_of_nodup (db : DB) (product_id : Nat) (p : ProductRow)
    (hnodup : (db.products.map (fun q => q.id)).Nodup)
    (hp : Product.get_by_id db product_id = some p) :
    ∀ q ∈ db.products, q.id = p.id → q = p := by
  intro q hq hqid
  have hpmem : p ∈ db.products := List.mem_of_find?_eq_some hp
  exact List.inj_on_of_nodup_map hnodup hq hpmem hqid

/-- Full component description of add_item when the product exists. -/
theorem add_item_components (o : Order) (db : DB) (oid product_id : Nat)
    (quantity price : Int) (p : ProductRow) (h : o.id = some oid)
    (hp : Product.get_by_id db product_id = some p) :
    (o.add_item db product_id quantity price).1 = some db.next_item_id ∧
    (o.add_item db product_id quantity price).2.1 =
      { o with total_amount := orderLinesTotal db oid + quantity * price } ∧
    (o.add_item db product_id quantity price).2.2.products =
      db.products.map
        (fun r => if r.id == p.id then { r with stock := p.stock + -quantity } else r) ∧
    (o.add_item db product_id quantity price).2.2.orders =
      db.orders.map
        (fun r => if r.id == oid then
           { r with total_amount := orderLinesTotal db oid + quantity * price } else r) ∧
    (o.add_item db product_id quantity price).2.2.order_items =
      db.order_items ++
        [{ id := db.next_item_id, order_id := oid, product_id := product_id,
           quantity := quantity, price := price, total := quantity * price }] ∧
    (o.add_item db product_id quantity price).2.2.financial_transactions =
      db.financial_transactions ∧
    (o.add_item db product_id quantity price).2.2.next_item_id = db.next_item_id + 1 := by
  have hsome : Product.get_by_id
      (o.update_total { db with
        order_items := db.order_items ++
          [{ id := db.next_item_id, order_id := oid, product_id := product_id,
             quantity := quantity, price := price, total := quantity * price }],
        next_item_id := db.next_item_id + 1 }).2.2 product_id = some p := by
    unfold Product.get_by_id at hp ⊢
    rw [update_total_products]
    exact hp
  have hT : orderLinesTotal { db with
      order_items := db.order_items ++
        [{ id := db.next_item_id, order_id := oid, product_id := product_id,
           quantity := quantity, price := price, total := quantity * price }],
      next_item_id := db.next_item_id + 1 } oid =
      orderLinesTotal db oid + quantity * price := by
    exact orderLinesTotal_append db _ oid
      { id := db.next_item_id, order_id := oid, product_id := product_id,
        quantity := quantity, price := price, total := quantity * price } rfl (by simp)
  simp only [Order.add_item, h, hsome]
  refine ⟨trivial, ?_, ?_, ?_, ?_, ?_, ?_⟩
  · rw [update_total_object _ _ oid h, hT, h]
  · rw [update_stock_products, update_total_products]
  · rw [update_stock_orders]
    simp only [Order.update_total, h, hT]
  · rw [update_stock_order_items, update_total_order_items]
  · rw [update_stock_financial, update_total_financial]
  · rw [update_stock_next_item_id, update_total_next_item_id]

/-- Full component description of remove_item when the item and its
product exist.  `TR` abbreviates the recomputed total over the remaining
lines. -/
theorem remove_item_components (o' : Order) (db' : DB) (iid oid : Nat)
    (item : OrderItemRow) (pr : ProductRow) (TR : Int)
    (h : o'.id = some oid)
    (hfind : db'.order_items.find? (fun it => it.id == iid) = some item)
    (hget : Product.get_by_id db' item.product_id = some pr)
    (hTR : TR = orderLinesTotal { db' with order_items := db'.order_items.filter (fun it => !(it.id == iid)) } oid) :
    (o'.remove_item db' iid).1 = true ∧
    (o'.remove_item db' iid).2.1 = { o' with total_amount := TR } ∧
    (o'.remove_item db' iid).2.2.products =
      db'.products.map
        (fun r => if r.id == pr.id then { r with stock := pr.stock + item.quantity } else r) ∧
    (o'.remove_item db' iid).2.2.order_items =
      db'.order_items.filter (fun it => !(it.id == iid)) ∧
    (o'.remove_item db' iid).2.2.orders =
      db'.orders.map (fun r => if r.id == oid then { r with total_amount := TR } else r) ∧
    (o'.remove_item db' iid).2.2.financial_transactions = db'.financial_transactions ∧
    (o'.remove_item db' iid).2.2.next_item_id = db'.next_item_id := by
  simp only [Order.remove_item, h, hfind, hget]
  have hTeq : orderLinesTotal { (Product.update_stock pr item.quantity db').2 with order_items := (Product.update_stock pr item.quantity db').2.order_items.filter (fun it => !(it.id == iid)) } oid = TR := by
    rw [hTR]
    refine orderLinesTotal_congr _ _ oid ?_
    rw [update_stock_order_items]
  refine ⟨trivial, ?_, ?_, ?_, ?_, ?_, ?_⟩
  · rw [update_total_object _ _ oid h, hTeq, h]
  · rw [update_total_products]
    simp only [update_stock_products]
  · rw [update_total_order_items]
    simp only [update_stock_order_items]
  · simp only [Order.update_total, h, hTeq]
    simp only [update_stock_orders]
  · rw [update_total_financial]
    simp only [update_stock_financial]
  · rw [update_total_next_item_id]
    simp only [update_stock_next_item_id]

/-! Claim theorems. -/

/-- C10: every mutating operation on an Order object that has never been
persisted (`id` is `None`) — delete, add_item, remove_item, update_total,
add_payment — returns its failure value immediately and performs no write:
the database state is returned unchanged. -/
theorem c10_unsaved_order_mutations_noop (o : Order) (db : DB)
    (product_id : Nat) (quantity price : Int) (item_id : Nat)
    (amount : Int) (method : String) (h : o.id = none) :
    o.delete db = (false, o, db) ∧
    o.add_item db product_id quantity price = (none, o, db) ∧
    o.remove_item db item_id = (false, o, db) ∧
    o.update_total db = (false, o, db) ∧
    o.add_payment db amount method = (false, o, db) := by
  refine ⟨?_, ?_, ?_, ?_, ?_⟩ <;>
    simp [Order.delete, Order.add_item, Order.remove_item, Order.update_total,
      Order.add_payment, h]

/-- Witness for C10: the unsaved order object against the sample database. -/
theorem c10_unsaved_order_mutations_noop_witness :
    unsavedOrder.id = none ∧
    unsavedOrder.delete sampleDB = (false, unsavedOrder, sampleDB) ∧
    unsavedOrder.add_item sampleDB 1 2 15000000 = (none, unsavedOrder, sampleDB) ∧
    unsavedOrder.remove_item sampleDB 1 = (false, unsavedOrder, sampleDB) ∧
    unsavedOrder.update_total sampleDB = (false, unsavedOrder, sampleDB) ∧
    unsavedOrder.add_payment sampleDB 100 "cash" = (false, unsavedOrder, sampleDB) :=
  ⟨rfl, c10_unsaved_order_mutations_noop unsavedOrder sampleDB 1 2 15000000 1 100 "cash" rfl⟩

/-- Counterexample to C3 as stated: with ten units in stock, an adjustment
of −15 does not fail — it succeeds and stores a negative stock of −5. -/
theorem c3_negative_stock_cex :
    (Product.update_stock sampleProduct (-15) sampleDB).1 = true ∧
    (Product.update_stock sampleProduct (-15) sampleDB).2.products.map (fun p => p.stock) =
      [-5] ∧
    ((-5 : Int) < 0) := by decide

/-- C3 (amended): Product.update_stock applies the delta unconditionally —
it always reports success and stores `stock + delta` for the product,
with no `InsufficientStock` rejection, so the stored stock can go
negative. -/
theorem c3_update_stock_unconditional (p : ProductRow) (delta : Int) (db : DB) :
    (Product.update_stock p delta db).1 = true ∧
    (Product.update_stock p delta db).2.products =
      db.products.map (fun q => if q.id == p.id then { q with stock := p.stock + delta } else q) ∧
    (Product.update_stock p delta db).2.orders = db.orders ∧
    (Product.update_stock p delta db).2.order_items = db.order_items :=
  ⟨rfl, rfl, rfl, rfl⟩

/-- Counterexample to C2 as stated: Scenario A (create order, add one line
of quantity 2 at unit price 15000000) does give total 30000000, but the
status stays 'pending' — the derivation rule demanding 'unpaid' is not
applied by the code. -/
theorem c2_status_cex :
    scenarioAOrder.total_amount = 30000000 ∧
    scenarioAOrder.status = "pending" ∧
    scenarioADB.orders.map (fun r => r.status) = ["pending"] ∧
    ("pending" : String) ≠ "unpaid" := by decide

/-- C2 (amended): add_item and remove_item never recompute the status;
add_payment is the only operation that touches it, setting it to 'paid'
exactly when the new paid_amount reaches the in-memory total_amount and
leaving it unchanged otherwise; in particular after Scenario A the status
is still 'pending', not 'unpaid'. -/
theorem c2_status_amended (o : Order) (db : DB) (product_id item_id : Nat)
    (quantity price amount : Int) (method : String) :
    (o.add_item db product_id quantity price).2.1.status = o.status ∧
    (o.remove_item db item_id).2.1.status = o.status ∧
    (o.add_payment db amount method).2.1.status =
      (match o.id with
       | none => o.status
       | some _ => if o.paid_amount + amount ≥ o.total_amount then "paid" else o.status) ∧
    scenarioAOrder.status = "pending" := by
  refine ⟨?_, ?_, ?_, by decide⟩
  · cases h : o.id with
    | none => simp [Order.add_item, h]
    | some oid =>
      simp only [Order.add_item, h]
      split <;> simp [Order.update_total, h]
  · cases h : o.id with
    | none => simp [Order.remove_item, h]
    | some oid =>
      simp only [Order.remove_item, h]
      cases hf : db.order_items.find? (fun it => it.id == item_id) <;>
        simp [hf, Order.update_total, h]
  · cases h : o.id with
    | none => simp [Order.add_payment, h]
    | some oid =>
      simp only [Order.add_payment, h]
      by_cases hp : o.paid_amount + amount ≥ o.total_amount <;> simp [hp]

/-- Counterexample to C4 as stated: deleting the Scenario A order (one
line of quantity 2, product stock currently 8) removes the line and the
order but leaves the product stock at 8 instead of restoring it to
8 + 2 = 10. -/
theorem c4_delete_stock_cex :
    (scenarioAOrder.delete scenarioADB).1 = true ∧
    (scenarioAOrder.delete scenarioADB).2.2.order_items = [] ∧
    (scenarioAOrder.delete scenarioADB).2.2.orders = [] ∧
    (scenarioAOrder.delete scenarioADB).2.2.products.map (fun p => p.stock) = [8] ∧
    ¬ ((8 : Int) = 8 + 2) := by decide

/-- C4 (amended): delete removes all the order's lines and the order row
itself, but performs no stock reversal — the products table (and the
payment ledger) are left exactly as they were. -/
theorem c4_delete_amended (o : Order) (db : DB) (oid : Nat) (h : o.id = some oid) :
    (o.delete db).1 = true ∧
    (o.delete db).2.2.order_items = db.order_items.filter (fun it => !(it.order_id == oid)) ∧
    (o.delete db).2.2.orders = db.orders.filter (fun r => !(r.id == oid)) ∧
    (o.delete db).2.2.products = db.products ∧
    (o.delete db).2.2.financial_transactions = db.financial_transactions := by
  unfold Order.delete
  rw [h]
  exact ⟨rfl, rfl, rfl, rfl, rfl⟩

/-- Witness for C4 (amended) at the Scenario A state. -/
theorem c4_delete_amended_witness :
    scenarioAOrder.id = some 1 ∧
    ((scenarioAOrder.delete scenarioADB).1 = true ∧
     (scenarioAOrder.delete scenarioADB).2.2.order_items =
       scenarioADB.order_items.filter (fun it => !(it.order_id == 1)) ∧
     (scenarioAOrder.delete scenarioADB).2.2.orders =
       scenarioADB.orders.filter (fun r => !(r.id == 1)) ∧
     (scenarioAOrder.delete scenarioADB).2.2.products = scenarioADB.products ∧
     (scenarioAOrder.delete scenarioADB).2.2.financial_transactions =
       scenarioADB.financial_transactions) :=
  ⟨by decide, c4_delete_amended scenarioAOrder scenarioADB 1 (by decide)⟩

/-- Counterexample to C9 as stated: adding a line for the nonexistent
product 99 does not fail — it returns the new row id, inserts the line and
recomputes the order total (only the stock write is silently skipped). -/
theorem c9_missing_product_cex :
    Product.get_by_id sampleDB 99 = none ∧
    (sampleOrder.add_item sampleDB 99 2 15000000).1 = some 1 ∧
    (sampleOrder.add_item sampleDB 99 2 15000000).2.2.order_items.length = 1 ∧
    (sampleOrder.add_item sampleDB 99 2 15000000).2.2.orders.map (fun r => r.total_amount) =
      [30000000] := by decide

/-- C9 (amended): when product_id does not resolve, add_item raises no
error: it still inserts the line and recomputes the stored total (keeping
the stored-total invariant); product stocks and the payment ledger are
unchanged only because the stock adjustment is skipped. -/
theorem c9_add_item_missing_product (o : Order) (db : DB) (oid product_id : Nat)
    (quantity price : Int) (h : o.id = some oid)
    (hp : Product.get_by_id db product_id = none) :
    (o.add_item db product_id quantity price).1 = some db.next_item_id ∧
    (o.add_item db product_id quantity price).2.2.products = db.products ∧
    (o.add_item db product_id quantity price).2.2.order_items =
      db.order_items ++
        [{ id := db.next_item_id, order_id := oid, product_id := product_id,
           quantity := quantity, price := price, total := quantity * price }] ∧
    (o.add_item db product_id quantity price).2.2.financial_transactions =
      db.financial_transactions ∧
    totalInv (o.add_item db product_id quantity price).2.2 oid := by
  have hnone : Product.get_by_id
      (o.update_total { db with
        order_items := db.order_items ++
          [{ id := db.next_item_id, order_id := oid, product_id := product_id,
             quantity := quantity, price := price, total := quantity * price }],
        next_item_id := db.next_item_id + 1 }).2.2 product_id = none := by
    unfold Product.get_by_id at hp ⊢
    rw [update_total_products]
    exact hp
  simp only [Order.add_item, h, hnone]
  refine ⟨trivial, ?_, ?_, ?_, ?_⟩
  · rw [update_total_products]
  · rw [update_total_order_items]
  · rw [update_total_financial]
  · exact update_total_establishes_inv o _ oid h

/-- Witness for C9 (amended): adding a line for the missing product 99. -/
theorem c9_add_item_missing_product_witness :
    sampleOrder.id = some 1 ∧
    Product.get_by_id sampleDB 99 = none ∧
    ((sampleOrder.add_item sampleDB 99 2 15000000).1 = some sampleDB.next_item_id ∧
     (sampleOrder.add_item sampleDB 99 2 15000000).2.2.products = sampleDB.products ∧
     (sampleOrder.add_item sampleDB 99 2 15000000).2.2.order_items =
       sampleDB.order_items ++
         [{ id := sampleDB.next_item_id, order_id := 1, product_id := 99,
            quantity := 2, price := 15000000, total := 2 * 15000000 }] ∧
     (sampleOrder.add_item sampleDB 99 2 15000000).2.2.financial_transactions =
       sampleDB.financial_transactions ∧
     totalInv (sampleOrder.add_item sampleDB 99 2 15000000).2.2 1) :=
  ⟨by decide, by decide,
   c9_add_item_missing_product sampleOrder sampleDB 1 99 2 15000000 (by decide) (by decide)⟩

/-- Counterexample to C5 as stated: add_item with the non-positive
quantity −3 is not rejected — it returns the new row id, inserts the line,
and even increases the product stock from 10 to 13. -/
theorem c5_no_quantity_validation_cex :
    (sampleOrder.add_item sampleDB 1 (-3) 15000000).1 = some 1 ∧
    (sampleOrder.add_item sampleDB 1 (-3) 15000000).2.2.order_items.length = 1 ∧
    (sampleOrder.add_item sampleDB 1 (-3) 15000000).2.2.products.map (fun p => p.stock) =
      [13] ∧
    ((-3 : Int) ≤ 0) := by decide

/-- C5 (amended): add_item performs no quantity validation and its stock
adjustment cannot fail: for any quantity whatsoever (positive or not) it
inserts the line, recomputes the stored total (keeping the stored-total
invariant), and decrements the existing product's stock by the quantity
with no insufficiency check. -/
theorem c5_add_item_no_validation (o : Order) (db : DB) (oid product_id : Nat)
    (quantity price : Int) (p : ProductRow) (h : o.id = some oid)
    (hp : Product.get_by_id db product_id = some p) :
    (o.add_item db product_id quantity price).1 = some db.next_item_id ∧
    (o.add_item db product_id quantity price).2.2.order_items =
      db.order_items ++
        [{ id := db.next_item_id, order_id := oid, product_id := product_id,
           quantity := quantity, price := price, total := quantity * price }] ∧
    (o.add_item db product_id quantity price).2.2.products =
      db.products.map
        (fun q => if q.id == p.id then { q with stock := p.stock - quantity } else q) ∧
    totalInv (o.add_item db product_id quantity price).2.2 oid := by
  have hsome : Product.get_by_id
      (o.update_total { db with
        order_items := db.order_items ++
          [{ id := db.next_item_id, order_id := oid, product_id := product_id,
             quantity := quantity, price := price, total := quantity * price }],
        next_item_id := db.next_item_id + 1 }).2.2 product_id = some p := by
    unfold Product.get_by_id at hp ⊢
    rw [update_total_products]
    exact hp
  simp only [Order.add_item, h, hsome]
  refine ⟨trivial, ?_, ?_, ?_⟩
  · rw [update_stock_order_items, update_total_order_items]
  · rw [update_stock_products, update_total_products]
    simp [sub_eq_add_neg]
  · exact update_stock_preserves_inv _ _ _ _ (update_total_establishes_inv o _ oid h)

/-- Witness for C5 (amended) at quantity −3 against the existing sample
product. -/
theorem c5_add_item_no_validation_witness :
    sampleOrder.id = some 1 ∧
    Product.get_by_id sampleDB 1 = some sampleProduct ∧
    ((sampleOrder.add_item sampleDB 1 (-3) 15000000).1 = some sampleDB.next_item_id ∧
     (sampleOrder.add_item sampleDB 1 (-3) 15000000).2.2.order_items =
       sampleDB.order_items ++
         [{ id := sampleDB.next_item_id, order_id := 1, product_id := 1,
            quantity := -3, price := 15000000, total := (-3) * 15000000 }] ∧
     (sampleOrder.add_item sampleDB 1 (-3) 15000000).2.2.products =
       sampleDB.products.map
         (fun q => if q.id == sampleProduct.id then
            { q with stock := sampleProduct.stock - (-3) } else q) ∧
     totalInv (sampleOrder.add_item sampleDB 1 (-3) 15000000).2.2 1) :=
  ⟨by decide, by decide,
   c5_add_item_no_validation sampleOrder sampleDB 1 1 (-3) 15000000 sampleProduct
     (by decide) (by decide)⟩

/-- Counterexample to C6 as stated: a payment of −100 is not rejected —
it returns True, drives paid_amount negative, and appends a ledger row. -/
theorem c6_negative_payment_cex :
    (scenarioAOrder.add_payment scenarioADB (-100) "cash").1 = true ∧
    (scenarioAOrder.add_payment scenarioADB (-100) "cash").2.1.paid_amount = -100 ∧
    (scenarioAOrder.add_payment scenarioADB (-100) "cash").2.2.financial_transactions.length =
      1 ∧
    ((-100 : Int) ≤ 0) := by decide

/-- C6 (amended): add_payment accepts any amount, including non-positive
ones: it adds the amount to paid_amount (in memory and in the row),
appends exactly one payment record, and sets the status to 'paid' exactly
when the new paid_amount reaches the in-memory total_amount. -/
theorem c6_add_payment_amended (o : Order) (db : DB) (oid : Nat) (amount : Int)
    (method : String) (h : o.id = some oid) :
    (o.add_payment db amount method).1 = true ∧
    (o.add_payment db amount method).2.1.paid_amount = o.paid_amount + amount ∧
    (o.add_payment db amount method).2.1.status =
      (if o.paid_amount + amount ≥ o.total_amount then "paid" else o.status) ∧
    (o.add_payment db amount method).2.2.financial_transactions =
      db.financial_transactions ++
        [{ type := "income", category := "payment", amount := amount,
           description := "Payment for order " ++ o.order_number,
           reference_id := toString oid, reference_type := "order",
           payment_method := method }] ∧
    (o.add_payment db amount method).2.2.orders.map (fun r => r.paid_amount) =
      db.orders.map
        (fun r => if r.id == oid then o.paid_amount + amount else r.paid_amount) ∧
    (o.add_payment db amount method).2.2.order_items = db.order_items ∧
    (o.add_payment db amount method).2.2.products = db.products := by
  simp only [Order.add_payment, h]
  by_cases hp : o.paid_amount + amount ≥ o.total_amount
  · simp only [hp, if_pos, Order.record_payment, ge_iff_le, le_refl]
    refine ⟨trivial, trivial, trivial, trivial, ?_, trivial, trivial⟩
    rw [List.map_map, List.map_map]
    apply List.map_congr_left
    intro r _
    by_cases hr : r.id == oid <;> simp [hr, Function.comp]
  · simp only [hp, if_false, ite_false, Order.record_payment]
    refine ⟨trivial, trivial, trivial, trivial, ?_, trivial, trivial⟩
    rw [List.map_map]
    apply List.map_congr_left
    intro r _
    by_cases hr : r.id == oid <;> simp [hr, Function.comp]

/-- Witness for C6 (amended): the −100 payment against the Scenario A
order. -/
theorem c6_add_payment_amended_witness :
    scenarioAOrder.id = some 1 ∧
    ((scenarioAOrder.add_payment scenarioADB (-100) "cash").1 = true ∧
     (scenarioAOrder.add_payment scenarioADB (-100) "cash").2.1.paid_amount =
       scenarioAOrder.paid_amount + (-100) ∧
     (scenarioAOrder.add_payment scenarioADB (-100) "cash").2.1.status =
       (if scenarioAOrder.paid_amount + (-100) ≥ scenarioAOrder.total_amount then "paid"
        else scenarioAOrder.status) ∧
     (scenarioAOrder.add_payment scenarioADB (-100) "cash").2.2.financial_transactions =
       scenarioADB.financial_transactions ++
         [{ type := "income", category := "payment", amount := -100,
            description := "Payment for order " ++ scenarioAOrder.order_number,
            reference_id := toString 1, reference_type := "order",
            payment_method := "cash" }] ∧
     (scenarioAOrder.add_payment scenarioADB (-100) "cash").2.2.orders.map
         (fun r => r.paid_amount) =
       scenarioADB.orders.map
         (fun r => if r.id == 1 then scenarioAOrder.paid_amount + (-100)
          else r.paid_amount) ∧
     (scenarioAOrder.add_payment scenarioADB (-100) "cash").2.2.order_items =
       scenarioADB.order_items ∧
     (scenarioAOrder.add_payment scenarioADB (-100) "cash").2.2.products =
       scenarioADB.products) :=
  ⟨by decide,
   c6_add_payment_amended scenarioAOrder scenarioADB 1 (-100) "cash" (by decide)⟩

/-- C1: for a persisted order satisfying the stored-total invariant (as a
freshly created order does: total 0, no lines), the invariant
`total_amount = sum of the order's line totals` holds again after every
committed sequence of operations (add_item, remove_item, add_payment,
delete) applied to that order. -/
theorem c1_total_amount_invariant (o : Order) (db : DB) (oid : Nat) (ops : List Op)
    (hid : o.id = some oid) (hinv : totalInv db oid) :
    totalInv (runOps (o, db) ops).2 oid := by
  induction ops generalizing o db with
  | nil => exact hinv
  | cons op rest ih =>
    have h1 : (applyOp (o, db) op).1.id = some oid := by
      rw [applyOp_fst_id]
      exact hid
    have h2 : totalInv (applyOp (o, db) op).2 oid :=
      applyOp_preserves_inv (o, db) op oid hid hinv
    exact ih (applyOp (o, db) op).1 (applyOp (o, db) op).2 h1 h2

/-- Witness for C1: a full lifecycle (add line, pay, remove line, delete)
on the sample order. -/
theorem c1_total_amount_invariant_witness :
    sampleOrder.id = some 1 ∧ totalInv sampleDB 1 ∧
    totalInv (runOps (sampleOrder, sampleDB)
      [Op.add_item 1 2 15000000, Op.add_payment 15000000 "cash",
       Op.remove_item 1, Op.delete]).2 1 :=
  ⟨rfl, by decide,
   c1_total_amount_invariant sampleOrder sampleDB 1
     [Op.add_item 1 2 15000000, Op.add_payment 15000000 "cash",
      Op.remove_item 1, Op.delete] rfl (by decide)⟩

/-- C7: for a consistent state (duplicate-free product ids, stored item
ids below the AUTOINCREMENT counter, stored total in sync), add_item
followed by remove_item of the inserted line is a net-zero round trip:
the item returns True, the in-memory order object is restored exactly, and
the database differs from the original only in the consumed item id. -/
theorem c7_add_remove_round_trip (o : Order) (db : DB) (oid product_id : Nat)
    (quantity price : Int) (p : ProductRow)
    (hid : o.id = some oid)
    (hp : Product.get_by_id db product_id = some p)
    (hnodup : (db.products.map (fun q => q.id)).Nodup)
    (hfresh : ∀ it ∈ db.order_items, it.id ≠ db.next_item_id)
    (hrow : totalInv db oid)
    (hobj : o.total_amount = orderLinesTotal db oid) :
    (o.add_item db product_id quantity price).1 = some db.next_item_id ∧
    ((o.add_item db product_id quantity price).2.1.remove_item
        (o.add_item db product_id quantity price).2.2 db.next_item_id).1 = true ∧
    ((o.add_item db product_id quantity price).2.1.remove_item
        (o.add_item db product_id quantity price).2.2 db.next_item_id).2.1 = o ∧
    ((o.add_item db product_id quantity price).2.1.remove_item
        (o.add_item db product_id quantity price).2.2 db.next_item_id).2.2 =
      { db with next_item_id := db.next_item_id + 1 } := by
  obtain ⟨a1, a2, a3, a4, a5, a6, a7⟩ :=
    add_item_components o db oid product_id quantity price p hid hp
  have hAid : (o.add_item db product_id quantity price).2.1.id = some oid := by
    rw [a2]
    exact hid
  have hfind : (o.add_item db product_id quantity price).2.2.order_items.find?
      (fun it => it.id == db.next_item_id) =
      some ⟨db.next_item_id, oid, product_id, quantity, price, quantity * price⟩ := by
    have hnone : db.order_items.find? (fun it => it.id == db.next_item_id) = none :=
      List.find?_eq_none.2 (fun x hx => by simpa using hfresh x hx)
    rw [a5, List.find?_append, hnone, Option.none_or]
    simp [List.find?_cons]
  have hget : Product.get_by_id (o.add_item db product_id quantity price).2.2 product_id =
      some { p with stock := p.stock + -quantity } := by
    unfold Product.get_by_id at hp ⊢
    rw [a3, find?_map_of_id _ _ (fun q => stockMap_id p.id (p.stock + -quantity) q), hp]
    simp
  have hfilter : (o.add_item db product_id quantity price).2.2.order_items.filter
      (fun it => !(it.id == db.next_item_id)) = db.order_items := by
    have h1 : db.order_items.filter (fun it => !(it.id == db.next_item_id)) =
        db.order_items :=
      List.filter_eq_self.2 (fun x hx => by simpa using hfresh x hx)
    rw [a5, List.filter_append, h1]
    simp
  have hTR : orderLinesTotal db oid =
      orderLinesTotal { (o.add_item db product_id quantity price).2.2 with order_items := (o.add_item db product_id quantity price).2.2.order_items.filter (fun it => !(it.id == db.next_item_id)) } oid := by
    refine orderLinesTotal_congr _ _ oid ?_
    exact hfilter.symm
  obtain ⟨r1, r2, r3, r4, r5, r6, r7⟩ :=
    remove_item_components (o.add_item db product_id quantity price).2.1
      (o.add_item db product_id quantity price).2.2 db.next_item_id oid
      ⟨db.next_item_id, oid, product_id, quantity, price, quantity * price⟩
      { p with stock := p.stock + -quantity } (orderLinesTotal db oid)
      hAid hfind hget hTR
  refine ⟨a1, r1, ?_, ?_⟩
  · rw [r2, a2, ← hobj]
  · refine DB.ext _ _ ?_ ?_ ?_ ?_ ?_
    · rw [r3, a3, List.map_map]
      refine Eq.trans (List.map_congr_left ?_) (List.map_id db.products)
      intro r hr
      by_cases hc : (r.id == p.id) = true
      · have hrp : r = p :=
          product_unique_of_nodup db product_id p hnodup hp r hr (by simpa using hc)
        subst hrp
        simp [Function.comp, neg_add_cancel_right]
      · simp [Function.comp, hc]
    · rw [r5, a4, List.map_map]
      refine Eq.trans (List.map_congr_left ?_) (List.map_id db.orders)
      intro r hr
      by_cases hc : (r.id == oid) = true
      · have hre : r.total_amount = orderLinesTotal db oid := hrow r hr (by simpa using hc)
        simp [Function.comp, hc, ← hre]
      · simp [Function.comp, hc]
    · rw [r4, hfilter]
    · rw [r6, a6]
    · rw [r7, a7]

/-- Witness for C7: adding two units of the sample product to the sample
order and removing the inserted line. -/
theorem c7_add_remove_round_trip_witness :
    sampleOrder.id = some 1 ∧
    Product.get_by_id sampleDB 1 = some sampleProduct ∧
    (sampleDB.products.map (fun q => q.id)).Nodup ∧
    (∀ it ∈ sampleDB.order_items, it.id ≠ sampleDB.next_item_id) ∧
    totalInv sampleDB 1 ∧
    sampleOrder.total_amount = orderLinesTotal sampleDB 1 ∧
    ((sampleOrder.add_item sampleDB 1 2 15000000).1 = some sampleDB.next_item_id ∧
     ((sampleOrder.add_item sampleDB 1 2 15000000).2.1.remove_item
         (sampleOrder.add_item sampleDB 1 2 15000000).2.2 sampleDB.next_item_id).1 = true ∧
     ((sampleOrder.add_item sampleDB 1 2 15000000).2.1.remove_item
         (sampleOrder.add_item sampleDB 1 2 15000000).2.2 sampleDB.next_item_id).2.1 =
       sampleOrder ∧
     ((sampleOrder.add_item sampleDB 1 2 15000000).2.1.remove_item
         (sampleOrder.add_item sampleDB 1 2 15000000).2.2 sampleDB.next_item_id).2.2 =
       { sampleDB with next_item_id := sampleDB.next_item_id + 1 }) :=
  ⟨by decide, by decide, by decide, by decide, by decide, by decide,
   c7_add_remove_round_trip sampleOrder sampleDB 1 1 2 15000000 sampleProduct
     (by decide) (by decide) (by decide) (by decide) (by decide) (by decide)⟩


namespace DatabaseController

/-- Characters produced by Nat.digitChar for a decimal digit are digits. -/
theorem digitChar_isDigit : ∀ d < 10, (Nat.digitChar d).isDigit = true := by decide

/-- Decimal digit characters are not whitespace. -/
theorem digitChar_not_ws : ∀ d < 10, (Nat.digitChar d).isWhitespace = false := by decide

/-- Decimal digit characters are not the minus sign. -/
theorem digitChar_ne_minus : ∀ d < 10, (Nat.digitChar d == '-') = false := by decide

/-- Decimal digit characters are not the plus sign. -/
theorem digitChar_ne_plus : ∀ d < 10, (Nat.digitChar d == '+') = false := by decide

/-- Code point of a decimal digit character. -/
theorem digitChar_toNat : ∀ d < 10, (Nat.digitChar d).toNat = 48 + d := by decide

/-- Decimal digit characters are ordered like their digits. -/
theorem digitChar_lt_mono : ∀ d < 10, ∀ e < 10, d < e → Nat.digitChar d < Nat.digitChar e := by
  decide

/-- The four-character list of `fourDigits`. -/
theorem fourDigits_length (k : Nat) : (fourDigits k).length = 4 := rfl

/-- Characters of a `String.mk`. -/
theorem mk_data (l : List Char) : (String.mk l).data = l := rfl

/-- Parsing the zero-padded four-digit representation recovers the
number. -/
theorem pyInt?_fourDigits (k : Nat) (hk : k ≤ 9999) :
    pyInt? (String.mk (fourDigits k)) = some (Int.ofNat k) := by
  have h3 : k / 1000 < 10 := by omega
  have h2 : k / 100 % 10 < 10 := by omega
  have h1 : k / 10 % 10 < 10 := by omega
  have h0 : k % 10 < 10 := by omega
  simp only [pyInt?, dropWS, fourDigits, mk_data, List.dropWhile,
    digitChar_not_ws _ h3, digitChar_not_ws _ h0, List.reverse_cons, List.reverse_nil,
    List.nil_append, List.cons_append, List.singleton_append]
  simp [digitChar_ne_minus _ h3, digitChar_ne_plus _ h3, digitsVal?,
    digitChar_isDigit _ h3, digitChar_isDigit _ h2, digitChar_isDigit _ h1,
    digitChar_isDigit _ h0, digitChar_toNat _ h3, digitChar_toNat _ h2,
    digitChar_toNat _ h1, digitChar_toNat _ h0]
  omega

/-- The Python format of a number at most 9999 is its four-digit
zero-padded form. -/
theorem fmt04_ofNat (k : Nat) (hk : k ≤ 9999) :
    fmt04 (Int.ofNat k) = String.mk (fourDigits k) := by
  unfold fmt04
  simp only [Int.ofNat_eq_natCast]
  rw [if_neg (by omega), if_pos (by simpa using hk)]
  simp

/-- Taking the last four characters after a four-character suffix yields
that suffix. -/
theorem lastChars_append (s : String) (l : List Char) (h : l.length = 4) :
    lastChars (s ++ String.mk l) 4 = String.mk l := by
  unfold lastChars
  rw [String.data_append, mk_data, List.reverse_append,
    List.take_left' (by simp [h]), List.reverse_reverse]


/-- listCharLt is irreflexive. -/
theorem listCharLt_irrefl (a : List Char) : listCharLt a a = false := by
  induction a with
  | nil => rfl
  | cons x as ih =>
    simp only [listCharLt]
    rw [if_neg (lt_irrefl x), if_neg (lt_irrefl x)]
    exact ih

/-- listCharLt is transitive. -/
theorem listCharLt_trans (a b c : List Char) (hab : listCharLt a b = true)
    (hbc : listCharLt b c = true) : listCharLt a c = true := by
  induction a generalizing b c with
  | nil =>
    cases b with
    | nil => simp [listCharLt] at hab
    | cons y bs =>
      cases c with
      | nil => simp [listCharLt] at hbc
      | cons z cs => simp [listCharLt]
  | cons x as ih =>
    cases b with
    | nil => simp [listCharLt] at hab
    | cons y bs =>
      cases c with
      | nil => simp [listCharLt] at hbc
      | cons z cs =>
        simp only [listCharLt] at hab hbc ⊢
        by_cases hxy : x < y
        · by_cases hyz : y < z
          · rw [if_pos (lt_trans hxy hyz)]
          · rw [if_neg hyz] at hbc
            by_cases hzy : z < y
            · rw [if_pos hzy] at hbc
              exact absurd hbc (by simp)
            · have hyzeq : y = z := le_antisymm (le_of_not_lt hzy) (le_of_not_lt hyz)
              rw [if_pos (hyzeq ▸ hxy)]
        · rw [if_neg hxy] at hab
          by_cases hyx : y < x
          · rw [if_pos hyx] at hab
            exact absurd hab (by simp)
          · rw [if_neg hyx] at hab
            have hxyeq : x = y := le_antisymm (le_of_not_lt hyx) (le_of_not_lt hxy)
            by_cases hyz : y < z
            · rw [if_pos (show x < z from hxyeq ▸ hyz)]
            · rw [if_neg hyz] at hbc
              by_cases hzy : z < y
              · rw [if_pos hzy] at hbc
                exact absurd hbc (by simp)
              · rw [if_neg hzy] at hbc
                have hyzeq : y = z := le_antisymm (le_of_not_lt hzy) (le_of_not_lt hyz)
                have hxz : ¬ x < z := by rw [hxyeq, hyzeq]; exact lt_irrefl z
                have hzx : ¬ z < x := by rw [hxyeq, hyzeq]; exact lt_irrefl z
                rw [if_neg hxz, if_neg hzx]
                exact ih bs cs hab hbc

/-- listCharLt is connex: two incomparable lists are equal. -/
theorem listCharLt_connex (a b : List Char) (h : listCharLt a b = false) :
    listCharLt b a = true ∨ a = b := by
  induction a generalizing b with
  | nil =>
    cases b with
    | nil => exact Or.inr rfl
    | cons y bs => simp [listCharLt] at h
  | cons x as ih =>
    cases b with
    | nil => exact Or.inl rfl
    | cons y bs =>
      simp only [listCharLt] at h ⊢
      by_cases hxy : x < y
      · rw [if_pos hxy] at h
        exact absurd h (by simp)
      · rw [if_neg hxy] at h
        by_cases hyx : y < x
        · exact Or.inl (by rw [if_pos hyx])
        · rw [if_neg hyx] at h
          have hxyeq : x = y := le_antisymm (le_of_not_lt hyx) (le_of_not_lt hxy)
          rcases ih bs h with h2 | h2
          · refine Or.inl ?_
            rw [if_neg hyx, if_neg hxy]
            exact h2
          · exact Or.inr (by rw [hxyeq, h2])

/-- A shared prefix does not affect the comparison. -/
theorem listCharLt_append_left (xs u v : List Char) :
    listCharLt (xs ++ u) (xs ++ v) = listCharLt u v := by
  induction xs with
  | nil => rfl
  | cons a xs ih =>
    show listCharLt (a :: (xs ++ u)) (a :: (xs ++ v)) = _
    simp only [listCharLt]
    rw [if_neg (lt_irrefl a), if_neg (lt_irrefl a)]
    exact ih

/-- Four-digit zero-padded representations are ordered like their
numbers. -/
theorem listCharLt_fourDigits (k k2 : Nat) (hk : k ≤ 9999) (hk2 : k2 ≤ 9999)
    (h : k < k2) : listCharLt (fourDigits k) (fourDigits k2) = true := by
  have b3 : k / 1000 < 10 := by omega
  have b2 : k / 100 % 10 < 10 := by omega
  have b1 : k / 10 % 10 < 10 := by omega
  have b0 : k % 10 < 10 := by omega
  have c3 : k2 / 1000 < 10 := by omega
  have c2 : k2 / 100 % 10 < 10 := by omega
  have c1 : k2 / 10 % 10 < 10 := by omega
  have c0 : k2 % 10 < 10 := by omega
  simp only [fourDigits, listCharLt]
  by_cases h3 : k / 1000 < k2 / 1000
  · rw [if_pos (digitChar_lt_mono _ b3 _ c3 h3)]
  · have e3 : k / 1000 = k2 / 1000 := by omega
    rw [e3, if_neg (lt_irrefl _), if_neg (lt_irrefl _)]
    by_cases h2 : k / 100 % 10 < k2 / 100 % 10
    · rw [if_pos (digitChar_lt_mono _ b2 _ c2 h2)]
    · have e2 : k / 100 % 10 = k2 / 100 % 10 := by omega
      rw [e2, if_neg (lt_irrefl _), if_neg (lt_irrefl _)]
      by_cases h1 : k / 10 % 10 < k2 / 10 % 10
      · rw [if_pos (digitChar_lt_mono _ b1 _ c1 h1)]
      · have e1 : k / 10 % 10 = k2 / 10 % 10 := by omega
        rw [e1, if_neg (lt_irrefl _), if_neg (lt_irrefl _)]
        have h0 : k % 10 < k2 % 10 := by omega
        rw [if_pos (digitChar_lt_mono _ b0 _ c0 h0)]


/-- Accumulator growth of the fold behind maxString?. -/
theorem maxString?_go_spec (l : List String) (m M : String)
    (h : List.foldl (fun acc s => match acc with
          | none => some s
          | some m => if listCharLt m.data s.data then some s else some m)
        (some m) l = some M) :
    (M = m ∨ M ∈ l) ∧ listCharLt M.data m.data = false ∧
      ∀ s ∈ l, listCharLt M.data s.data = false := by
  induction l generalizing m with
  | nil =>
    simp only [List.foldl_nil, Option.some.injEq] at h
    subst h
    exact ⟨Or.inl rfl, listCharLt_irrefl _, by simp⟩
  | cons s l ih =>
    rw [List.foldl_cons] at h
    by_cases hc : listCharLt m.data s.data = true
    · simp only [hc, ite_true, if_true] at h
      obtain ⟨hmem, hMs, hall⟩ := ih s h
      refine ⟨?_, ?_, ?_⟩
      · rcases hmem with rfl | hM
        · exact Or.inr (List.mem_cons_self _ _)
        · exact Or.inr (List.mem_cons_of_mem _ hM)
      · by_contra hMm
        have hMm2 : listCharLt M.data m.data = true := by
          cases hMM : listCharLt M.data m.data
          · exact absurd hMM hMm
          · rfl
        have := listCharLt_trans _ _ _ hMm2 hc
        rw [this] at hMs
        exact absurd hMs (by simp)
      · intro t ht
        rcases List.mem_cons.1 ht with rfl | ht
        · exact hMs
        · exact hall t ht
    · have hc2 : listCharLt m.data s.data = false := by
        cases hcc : listCharLt m.data s.data
        · rfl
        · exact absurd hcc hc
      simp only [hc2, Bool.false_eq_true, ite_false, if_false] at h
      obtain ⟨hmem, hMm, hall⟩ := ih m h
      refine ⟨?_, hMm, ?_⟩
      · rcases hmem with rfl | hM
        · exact Or.inl rfl
        · exact Or.inr (List.mem_cons_of_mem _ hM)
      · intro t ht
        rcases List.mem_cons.1 ht with rfl | ht
        · cases hMt : listCharLt M.data t.data
          · rfl
          · exfalso
            rcases listCharLt_connex _ _ hc2 with h2 | h2
            · have := listCharLt_trans _ _ _ hMt h2
              rw [this] at hMm
              exact absurd hMm (by simp)
            · rw [← h2] at hMt
              rw [hMt] at hMm
              exact absurd hMm (by simp)
        · exact hall t ht

/-- The fold behind maxString? never collapses back to none. -/
theorem maxString?_go_ne_none (l : List String) (m : String) :
    List.foldl (fun acc s => match acc with
        | none => some s
        | some m => if listCharLt m.data s.data then some s else some m)
      (some m) l ≠ none := by
  induction l generalizing m with
  | nil => simp
  | cons s l ih =>
    rw [List.foldl_cons]
    by_cases hc : listCharLt m.data s.data = true <;> simp [hc] <;> apply ih

/-- The row selected by `ORDER BY ... DESC LIMIT 1` is a stored row that
no other stored row exceeds. -/
theorem maxString?_spec (l : List String) (M : String) (h : maxString? l = some M) :
    M ∈ l ∧ ∀ s ∈ l, listCharLt M.data s.data = false := by
  unfold maxString? at h
  cases l with
  | nil => simp at h
  | cons s l =>
    rw [List.foldl_cons] at h
    obtain ⟨hmem, hMs, hall⟩ := maxString?_go_spec l s M h
    refine ⟨?_, ?_⟩
    · rcases hmem with rfl | hM
      · exact List.mem_cons_self _ _
      · exact List.mem_cons_of_mem _ hM
    · intro t ht
      rcases List.mem_cons.1 ht with rfl | ht
      · exact hMs
      · exact hall t ht

/-- An empty result from maxString? means there was no row. -/
theorem maxString?_none (l : List String) (h : maxString? l = none) : l = [] := by
  cases l with
  | nil => rfl
  | cons s l =>
    exfalso
    unfold maxString? at h
    rw [List.foldl_cons] at h
    exact maxString?_go_ne_none l s h

/-- The seed of a running maximum never exceeds the result. -/
theorem foldl_max_init_le (l : List Nat) (a : Nat) : a ≤ l.foldl max a := by
  induction l generalizing a with
  | nil => simp
  | cons y l ih =>
    rw [List.foldl_cons]
    exact le_trans (le_max_left a y) (ih (max a y))

/-- Every element bounds the running maximum from below. -/
theorem le_foldl_max (l : List Nat) (a : Nat) (x : Nat) (hx : x ∈ l) :
    x ≤ l.foldl max a := by
  induction l generalizing a with
  | nil => cases hx
  | cons y l ih =>
    rw [List.foldl_cons]
    rcases List.mem_cons.1 hx with rfl | hx
    · exact le_trans (le_max_right a x) (foldl_max_init_le l (max a x))
    · exact ih _ hx

/-- The running maximum stays below any common upper bound. -/
theorem foldl_max_le (l : List Nat) (a K : Nat) (ha : a ≤ K) (h : ∀ x ∈ l, x ≤ K) :
    l.foldl max a ≤ K := by
  induction l generalizing a with
  | nil => simpa
  | cons y l ih =>
    rw [List.foldl_cons]
    exact ih (max a y) (max_le ha (h y (List.mem_cons_self y l)))
      (fun x hx => h x (List.mem_cons_of_mem _ hx))


/-- C8: when every stored number for the `(prefix, date)` pair is the
standard `{prefix}{date}{seq:04d}` shape with a four-digit sequence,
generate_number returns `{prefix}{date}{seq:04d}` where seq is one greater
than the highest sequence already issued for that pair (1, printed `0001`,
when none exists); and when the trailing-four-character parse of the
highest stored number fails, it returns the number with sequence `0001`
instead of raising. -/
theorem c8_generate_number (table : List String) (pfx date_str : String) :
    ((∀ s ∈ table, startsWithChars (pfx ++ date_str) s = true →
        ∃ k ≤ 9999, s = (pfx ++ date_str) ++ fmt04 (Int.ofNat k)) →
      generate_number table pfx date_str =
        (pfx ++ date_str) ++ fmt04 (Int.ofNat (issuedMax table (pfx ++ date_str) + 1))) ∧
    (∀ m, maxString? (table.filter (fun s => startsWithChars (pfx ++ date_str) s)) = some m →
      pyInt? (lastChars m 4) = none →
      generate_number table pfx date_str = (pfx ++ date_str) ++ "0001") := by
  constructor
  · intro hwf
    cases hmax : maxString? (table.filter (fun s => startsWithChars (pfx ++ date_str) s)) with
    | none =>
      have hempty := maxString?_none _ hmax
      have hzero : issuedMax table (pfx ++ date_str) = 0 := by
        unfold issuedMax
        rw [hempty]
        rfl
      rw [hzero]
      simp only [generate_number, hmax]
      rfl
    | some M =>
      obtain ⟨hMmem, hMmax⟩ := maxString?_spec _ M hmax
      have hMf := List.mem_filter.1 hMmem
      obtain ⟨kM, hkM, hMeq⟩ := hwf M hMf.1 hMf.2
      have hparse : pyInt? (lastChars M 4) = some (Int.ofNat kM) := by
        rw [hMeq, fmt04_ofNat kM hkM, lastChars_append _ _ (fourDigits_length kM)]
        exact pyInt?_fourDigits kM hkM
      simp only [generate_number, hmax, hparse]
      have hseqM : seqOf M = kM := by
        unfold seqOf
        rw [hparse]
        rfl
      have hmaxseq : issuedMax table (pfx ++ date_str) = kM := by
        unfold issuedMax
        refine le_antisymm ?_ ?_
        · refine foldl_max_le _ 0 kM (Nat.zero_le _) ?_
          intro x hx
          obtain ⟨t, ht, rfl⟩ := List.mem_map.1 hx
          have htf := List.mem_filter.1 ht
          obtain ⟨kt, hkt, hteq⟩ := hwf t htf.1 htf.2
          have htval : seqOf t = kt := by
            unfold seqOf
            rw [hteq, fmt04_ofNat kt hkt, lastChars_append _ _ (fourDigits_length kt),
              pyInt?_fourDigits kt hkt]
            rfl
          rw [htval]
          by_contra hgt
          push_neg at hgt
          have hlt : listCharLt M.data t.data = true := by
            rw [hMeq, hteq, fmt04_ofNat kM hkM, fmt04_ofNat kt hkt]
            simp only [String.data_append, mk_data]
            rw [listCharLt_append_left]
            exact listCharLt_fourDigits kM kt hkM hkt hgt
          rw [hMmax t ht] at hlt
          exact absurd hlt (by simp)
        · refine le_foldl_max _ 0 kM ?_
          rw [← hseqM]
          exact List.mem_map.2 ⟨M, hMmem, rfl⟩
      rw [hmaxseq]
      have hcast : Int.ofNat kM + 1 = Int.ofNat (kM + 1) := rfl
      rw [hcast]
  · intro m hmax hfail
    simp only [generate_number, hmax, hfail]
    have h1 : fmt04 1 = "0001" := by decide
    rw [h1]

/-- Witness for C8: a table of well-formed numbers (part one) and a table
whose stored number has a non-numeric tail (part two). -/
theorem c8_generate_number_witness :
    ((∀ s ∈ (["ORD202401010001", "ORD202401010007", "INV202401010003"] : List String),
        startsWithChars ("ORD" ++ "20240101") s = true →
        ∃ k ≤ 9999, s = ("ORD" ++ "20240101") ++ fmt04 (Int.ofNat k)) ∧
     generate_number ["ORD202401010001", "ORD202401010007", "INV202401010003"]
         "ORD" "20240101" =
       ("ORD" ++ "20240101") ++
         fmt04 (Int.ofNat (issuedMax ["ORD202401010001", "ORD202401010007", "INV202401010003"]
           ("ORD" ++ "20240101") + 1))) ∧
    (maxString? ((["ORD20240101ABCD"] : List String).filter
        (fun s => startsWithChars ("ORD" ++ "20240101") s)) = some "ORD20240101ABCD" ∧
     pyInt? (lastChars "ORD20240101ABCD" 4) = none ∧
     generate_number ["ORD20240101ABCD"] "ORD" "20240101" =
       ("ORD" ++ "20240101") ++ "0001") := by
  have hwf : ∀ s ∈ (["ORD202401010001", "ORD202401010007", "INV202401010003"] : List String),
      startsWithChars ("ORD" ++ "20240101") s = true →
      ∃ k ≤ 9999, s = ("ORD" ++ "20240101") ++ fmt04 (Int.ofNat k) := by
    intro s hs hst
    fin_cases hs
    · exact ⟨1, by decide, by decide⟩
    · exact ⟨7, by decide, by decide⟩
    · exact absurd hst (by decide)
  refine ⟨⟨hwf, (c8_generate_number ["ORD202401010001", "ORD202401010007",
    "INV202401010003"] "ORD" "20240101").1 hwf⟩, by decide, by decide, ?_⟩
  exact (c8_generate_number ["ORD20240101ABCD"] "ORD" "20240101").2 "ORD20240101ABCD"
    (by decide) (by decide)

end DatabaseController

end BizApp